import Mathlib

/-!
# Verification of the Ansible Docker SSH provisioner

Shallow embedding of `src/manba/testSSH/test.py` (class `AnsibleDockerConnector`
and its `SSHInstaller` templates).  The remote executor (`container.exec_run`)
is modelled as an abstract function from commands to an optional result, where
`none` models the Python call raising an exception.  Every embedded operation
additionally returns the ordered list of observable events (executor
invocations, the image-metadata inspection of strategy 3, and the final SSH
connectivity test), so that the short-circuit / call-count properties of the
specification are directly statable.
-/

set_option autoImplicit false
set_option linter.unusedVariables false

namespace TestSSH

/-- A command issued to the container runtime, as `exec_run` receives it:
`sh c` is `exec_run ("/bin/sh -c " ++ quoted c)`, `raw c` is `exec_run c`
without the shell wrapper, and `detach c` is `exec_run (c, detach=True)`. -/
inductive ExecCmd where
  | sh (cmd : String)
  | raw (cmd : String)
  | detach (cmd : String)
deriving DecidableEq

/-- `CommandResult`: exit code plus combined output of one executor call
(`result.exit_code`, `result.output`; the output bytes are modelled as a
string). -/
structure CommandResult where
  exit_code : Int
  output : String
deriving DecidableEq

/-- The container attributes consulted by `_get_container_ip` /
`_extract_container_info`: `attrs['NetworkSettings']['IPAddress']` and
`attrs['NetworkSettings']['Networks']` (a name-keyed mapping whose values may
or may not carry an `IPAddress` key, hence `Option String`). -/
structure ContainerAttrs where
  ip_address : String
  networks : List (String × Option String)
deriving DecidableEq

/-- A target container.  `exec` is the remote executor: `none` models
`exec_run` raising an exception.  `image_tags` models `container.image.tags`
(`none` = accessing the attribute raises).  `attrs` models `container.attrs`
(`none` = accessing it raises). -/
structure Container where
  exec : ExecCmd → Option CommandResult
  image_tags : Option (List String)
  attrs : Option ContainerAttrs

/-- Observable events of one provisioning / detection run, in order:
executor invocations, the strategy-3 read of the image metadata, and the
final SSH connectivity test against a resolved address. -/
inductive Event where
  | exec (cmd : ExecCmd)
  | imageInspect
  | sshTest (ip : String)
deriving DecidableEq

/-- `True` exactly on the SSH-connectivity-test event. -/
def is_ssh_test : Event → Bool
  | .sshTest _ => true
  | _ => false

/-- Does the second character list start with the first one?  Helper for
the Python substring operator `in`. -/
def chars_start_with : List Char → List Char → Bool
  | [], _ => true
  | _ :: _, [] => false
  | a :: as, b :: bs => a == b && chars_start_with as bs

/-- Does the second character list contain the first one as a contiguous
run?  Helper for the Python substring operator `in`. -/
def chars_contain (needle : List Char) : List Char → Bool
  | [] => needle.isEmpty
  | b :: bs => chars_start_with needle (b :: bs) || chars_contain needle bs

/-- The Python substring test `needle in hay` on strings. -/
def strContains (hay needle : String) : Bool :=
  chars_contain needle.data hay.data

/-- Python `bytes.strip()` (no argument): remove leading and trailing
whitespace. -/
def py_strip (s : String) : String :=
  ⟨((s.data.dropWhile Char.isWhitespace).reverse.dropWhile Char.isWhitespace).reverse⟩

/-- Python `str.lower()`. -/
def py_lower (s : String) : String :=
  ⟨s.data.map Char.toLower⟩

/-! ## Strategy 1: `_check_package_managers_directly` -/

/-- The probe table of `_check_package_managers_directly` (name, check
command), in source order. -/
def package_managers : List (String × String) :=
  [("apk", "apk --version 2>/dev/null"),
   ("apt", "apt-get --version 2>/dev/null"),
   ("yum", "yum --version 2>/dev/null"),
   ("dnf", "dnf --version 2>/dev/null"),
   ("zypper", "zypper --version 2>/dev/null"),
   ("pacman", "pacman --version 2>/dev/null")]

/-- The loop body of `_check_package_managers_directly`: run each probe via
the shell; return the first name whose probe exits 0; an exception
(`exec = none`) or a non-zero exit falls through to the next candidate. -/
def pm_go (c : Container) : List (String × String) → Option String × List Event
  | [] => (none, [])
  | (pm_name, check_cmd) :: rest =>
    match c.exec (.sh check_cmd) with
    | none =>
      let r := pm_go c rest
      (r.1, Event.exec (.sh check_cmd) :: r.2)
    | some result =>
      if result.exit_code = 0 then (some pm_name, [Event.exec (.sh check_cmd)])
      else
        let r := pm_go c rest
        (r.1, Event.exec (.sh check_cmd) :: r.2)

/-- `_check_package_managers_directly`, with its trace of executor calls. -/
def _check_package_managers_directly (c : Container) : Option String × List Event :=
  pm_go c package_managers

/-! ## Strategy 2: `_check_os_release_files` -/

/-- The release-file list of `_check_os_release_files`, in source order. -/
def release_files : List String :=
  ["/etc/os-release",
   "/etc/lsb-release",
   "/etc/redhat-release",
   "/etc/debian_version",
   "/etc/alpine-release",
   "/etc/centos-release"]

/-- The (unwrapped) command `_check_os_release_files` issues per file. -/
def cat_cmd (release_file : String) : String :=
  "cat " ++ release_file ++ " 2>/dev/null || true"

/-- One iteration of the `_check_os_release_files` loop: read the file; on
exit 0 with non-empty output, lower-case the content and match the keyword
cascade (which also matches the file path for `alpine` and `debian`). -/
def release_file_step (c : Container) (release_file : String) : Option String :=
  match c.exec (.raw (cat_cmd release_file)) with
  | none => none
  | some result =>
    if result.exit_code = 0 ∧ result.output ≠ "" then
      let content := py_lower result.output
      if strContains content "alpine" || strContains release_file "alpine" then some "apk"
      else if strContains content "ubuntu" || strContains content "debian" ||
              strContains release_file "debian" then some "apt"
      else if strContains content "centos" || strContains content "rhel" ||
              strContains content "red hat" then some "yum"
      else if strContains content "fedora" then some "dnf"
      else if strContains content "suse" || strContains content "opensuse" then some "zypper"
      else if strContains content "arch" then some "pacman"
      else none
    else none

/-- The loop of `_check_os_release_files`: first file yielding a match wins;
unreadable or non-matching files are skipped. -/
def release_go (c : Container) : List String → Option String × List Event
  | [] => (none, [])
  | release_file :: rest =>
    let ev := Event.exec (.raw (cat_cmd release_file))
    match release_file_step c release_file with
    | some pm => (some pm, [ev])
    | none =>
      let r := release_go c rest
      (r.1, ev :: r.2)

/-- `_check_os_release_files`, with its trace of executor calls. -/
def _check_os_release_files (c : Container) : Option String × List Event :=
  release_go c release_files

/-! ## Strategy 3: `_check_image_metadata` -/

/-- `_check_image_metadata`: inspect `container.image.tags`; an exception or
an empty tag list yields nothing; otherwise match known substrings of the
lower-cased first tag.  No executor call is made. -/
def _check_image_metadata (c : Container) : Option String :=
  match c.image_tags with
  | none => none
  | some [] => none
  | some (tag :: _) =>
    let image_name := py_lower tag
    if ["alpine", "busybox"].any (fun p => strContains image_name p) then some "apk"
    else if ["ubuntu", "debian"].any (fun p => strContains image_name p) then some "apt"
    else if ["centos", "rhel", "rockylinux", "oraclelinux"].any
              (fun p => strContains image_name p) then some "yum"
    else if ["fedora"].any (fun p => strContains image_name p) then some "dnf"
    else if ["opensuse", "suse"].any (fun p => strContains image_name p) then some "zypper"
    else if ["archlinux"].any (fun p => strContains image_name p) then some "pacman"
    else none

/-! ## Strategy 4: `_infer_from_available_commands` -/

/-- The config-file table of `_infer_from_available_commands`. -/
def config_files : List (String × String) :=
  [("apk", "/etc/apk/repositories"),
   ("apt", "/etc/apt/sources.list"),
   ("yum", "/etc/yum.repos.d/"),
   ("dnf", "/etc/dnf/dnf.conf"),
   ("zypper", "/etc/zypp/")]

/-- The (unwrapped) `ls` command issued per config file. -/
def ls_cmd (config_file : String) : String :=
  "ls " ++ config_file ++ " 2>/dev/null || true"

/-- First loop of `_infer_from_available_commands`: a config path whose
listing exits 0 with non-empty output wins. -/
def config_go (c : Container) : List (String × String) → Option String × List Event
  | [] => (none, [])
  | (pm_name, config_file) :: rest =>
    let ev := Event.exec (.raw (ls_cmd config_file))
    match c.exec (.raw (ls_cmd config_file)) with
    | none =>
      let r := config_go c rest
      (r.1, ev :: r.2)
    | some result =>
      if result.exit_code = 0 ∧ result.output ≠ "" then (some pm_name, [ev])
      else
        let r := config_go c rest
        (r.1, ev :: r.2)

/-- The state-directory table of `_infer_from_available_commands` (shell
wrapped, unlike the config-file loop). -/
def dir_checks : List (String × String) :=
  [("apk", "ls /lib/apk/ 2>/dev/null"),
   ("apt", "ls /var/lib/apt/ 2>/dev/null"),
   ("yum", "ls /var/lib/yum/ 2>/dev/null"),
   ("dnf", "ls /var/lib/dnf/ 2>/dev/null")]

/-- Second loop of `_infer_from_available_commands`. -/
def dirs_go (c : Container) : List (String × String) → Option String × List Event
  | [] => (none, [])
  | (pm_name, check_cmd) :: rest =>
    let ev := Event.exec (.sh check_cmd)
    match c.exec (.sh check_cmd) with
    | none =>
      let r := dirs_go c rest
      (r.1, ev :: r.2)
    | some result =>
      if result.exit_code = 0 ∧ result.output ≠ "" then (some pm_name, [ev])
      else
        let r := dirs_go c rest
        (r.1, ev :: r.2)

/-- `_infer_from_available_commands`: config-file loop, then directory
loop. -/
def _infer_from_available_commands (c : Container) : Option String × List Event :=
  let cfg := config_go c config_files
  match cfg.1 with
  | some pm => (some pm, cfg.2)
  | none =>
    let dirs := dirs_go c dir_checks
    (dirs.1, cfg.2 ++ dirs.2)

/-! ## `detect_package_manager` -/

/-- `detect_package_manager`: the four-strategy cascade.  Returns the first
strategy result (Python `None`, the `unknown` outcome of the specification,
is modelled as `none`) together with the full trace of observable events.
The function is total: no strategy ever raises. -/
def detect_package_manager (c : Container) : Option String × List Event :=
  let s1 := _check_package_managers_directly c
  match s1.1 with
  | some pm => (some pm, s1.2)
  | none =>
    let s2 := _check_os_release_files c
    match s2.1 with
    | some pm => (some pm, s1.2 ++ s2.2)
    | none =>
      match _check_image_metadata c with
      | some pm => (some pm, s1.2 ++ s2.2 ++ [Event.imageInspect])
      | none =>
        let s4 := _infer_from_available_commands c
        (s4.1, s1.2 ++ s2.2 ++ [Event.imageInspect] ++ s4.2)

/-! ## `SSHInstaller.INSTALL_TEMPLATES` -/

/-- One entry of `SSHInstaller.INSTALL_TEMPLATES`. -/
structure InstallTemplate where
  install_cmd : String
  packages : List String
  post_install : List String
  service_cmd : String
deriving DecidableEq

/-- The `apk` entry of `SSHInstaller.INSTALL_TEMPLATES`. -/
def apk_template : InstallTemplate :=
  { install_cmd := "apk add --no-cache {packages}"
    packages := ["openssh-server", "openssh-client", "sudo", "bash", "python3"]
    post_install := ["rc-update add sshd", "ssh-keygen -A", "mkdir -p /var/run/sshd"]
    service_cmd := "/usr/sbin/sshd -D" }

/-- The `apt` entry of `SSHInstaller.INSTALL_TEMPLATES`. -/
def apt_template : InstallTemplate :=
  { install_cmd := "apt-get update && DEBIAN_FRONTEND=noninteractive apt-get install -y {packages}"
    packages := ["openssh-server", "openssh-client", "sudo", "python3"]
    post_install := ["mkdir -p /var/run/sshd",
      "systemctl enable ssh 2>/dev/null || update-rc.d ssh enable 2>/dev/null || true"]
    service_cmd := "service ssh start && /usr/sbin/sshd -D" }

/-- The `yum` entry of `SSHInstaller.INSTALL_TEMPLATES`. -/
def yum_template : InstallTemplate :=
  { install_cmd := "yum install -y {packages}"
    packages := ["openssh-server", "openssh-clients", "sudo", "python3"]
    post_install := ["systemctl enable sshd 2>/dev/null || true", "ssh-keygen -A -t rsa"]
    service_cmd := "/usr/sbin/sshd -D" }

/-- The `dnf` entry of `SSHInstaller.INSTALL_TEMPLATES`. -/
def dnf_template : InstallTemplate :=
  { install_cmd := "dnf install -y {packages}"
    packages := ["openssh-server", "openssh-clients", "sudo", "python3"]
    post_install := ["systemctl enable sshd 2>/dev/null || true", "ssh-keygen -A -t rsa"]
    service_cmd := "/usr/sbin/sshd -D" }

/-- The `zypper` entry of `SSHInstaller.INSTALL_TEMPLATES`. -/
def zypper_template : InstallTemplate :=
  { install_cmd := "zypper install -y {packages}"
    packages := ["openssh", "sudo", "python3"]
    post_install := ["systemctl enable sshd 2>/dev/null || true", "ssh-keygen -A"]
    service_cmd := "/usr/sbin/sshd -D" }

/-- `SSHInstaller.INSTALL_TEMPLATES`, in source order.  `pacman` and
`unknown` have no entry. -/
def INSTALL_TEMPLATES : List (String × InstallTemplate) :=
  [("apk", apk_template),
   ("apt", apt_template),
   ("yum", yum_template),
   ("dnf", dnf_template),
   ("zypper", zypper_template)]

/-- The concrete install command of a template:
`template["install_cmd"].format(packages=" ".join(template["packages"]))`. -/
def install_command (template : InstallTemplate) : String :=
  template.install_cmd.replace "{packages}" (String.intercalate " " template.packages)

/-! ## `_check_ssh_running` -/

/-- The probe command of `_check_ssh_running` (issued unwrapped). -/
def ssh_check_cmd : String :=
  "pgrep sshd || ps aux | grep sshd | grep -v grep"

/-- `_check_ssh_running`: true iff the probe does not raise, exits 0 and
produces non-whitespace output (`result.output.strip() != b` empty). -/
def _check_ssh_running (c : Container) : Bool :=
  match c.exec (.raw ssh_check_cmd) with
  | none => false
  | some result => decide (result.exit_code = 0 ∧ py_strip result.output ≠ "")

/-! ## `_install_ssh_with_pm` -/

/-- The post-install loop of `_install_ssh_with_pm`: each command is run
via the shell, its exit status ignored; but an exception is caught by the
surrounding `try` of `_install_ssh_with_pm` and turns the whole call into
failure. -/
def run_post_install (c : Container) : List String → Bool × List Event
  | [] => (true, [])
  | post_cmd :: rest =>
    match c.exec (.sh post_cmd) with
    | none => (false, [Event.exec (.sh post_cmd)])
    | some _ =>
      let r := run_post_install c rest
      (r.1, Event.exec (.sh post_cmd) :: r.2)

/-- `_install_ssh_with_pm`: look up the template (no template → failure with
no command issued); run the formatted install command (exception or
non-zero exit → failure, stopping the stage); then run the post-install
commands best-effort. -/
def _install_ssh_with_pm (c : Container) (package_manager username password : String) :
    Bool × List Event :=
  match INSTALL_TEMPLATES.lookup package_manager with
  | none => (false, [])
  | some template =>
    let install_cmd := install_command template
    let ev := Event.exec (.sh install_cmd)
    match c.exec (.sh install_cmd) with
    | none => (false, [ev])
    | some result =>
      if result.exit_code ≠ 0 then (false, [ev])
      else
        let post := run_post_install c template.post_install
        (post.1, ev :: post.2)

/-! ## `_install_ssh_universal` -/

/-- The fallback one-liners of `_install_ssh_universal`, in source order. -/
def universal_approaches : List String :=
  ["apt-get update && apt-get install -y openssh-server sudo 2>/dev/null || true",
   "yum install -y openssh-server sudo 2>/dev/null || true",
   "apk add --no-cache openssh-server sudo 2>/dev/null || true",
   "dnf install -y openssh-server sudo 2>/dev/null || true"]

/-- The loop of `_install_ssh_universal`: first approach exiting 0 wins;
the loop has no `try`, so an executor exception propagates (`none`). -/
def universal_go (c : Container) : List String → Option (Bool × List Event)
  | [] => some (false, [])
  | approach :: rest =>
    match c.exec (.sh approach) with
    | none => none
    | some result =>
      if result.exit_code = 0 then some (true, [Event.exec (.sh approach)])
      else
        (universal_go c rest).map (fun r => (r.1, Event.exec (.sh approach) :: r.2))

/-- `_install_ssh_universal` (the username / password parameters are unused
by the source body). -/
def _install_ssh_universal (c : Container) (username password : String) :
    Option (Bool × List Event) :=
  universal_go c universal_approaches

/-! ## `_setup_ssh_user` -/

/-- The user-configuration command list of `_setup_ssh_user`. -/
def create_user_cmds (username password : String) : List String :=
  ["id -u " ++ username ++ " >/dev/null 2>&1 || useradd -m -s /bin/bash " ++ username,
   "echo \x27" ++ username ++ ":" ++ password ++ "\x27 | chpasswd",
   "echo \x27" ++ username ++ " ALL=(ALL) NOPASSWD:ALL\x27 >> /etc/sudoers",
   "mkdir -p /home/" ++ username ++ "/.ssh",
   "chown -R " ++ username ++ ":" ++ username ++ " /home/" ++ username ++ "/.ssh",
   "chmod 700 /home/" ++ username ++ "/.ssh"]

/-- The loop of `_setup_ssh_user`: every command is run via the shell with
its result ignored; there is no `try`, so an exception propagates out of
`setup_ssh_in_container` (modelled as `none`). -/
def user_go (c : Container) : List String → Option (List Event)
  | [] => some []
  | cmd :: rest =>
    match c.exec (.sh cmd) with
    | none => none
    | some _ => (user_go c rest).map (fun evs => Event.exec (.sh cmd) :: evs)

/-- `_setup_ssh_user`. -/
def _setup_ssh_user (c : Container) (username password : String) : Option (List Event) :=
  user_go c (create_user_cmds username password)

/-! ## `_start_ssh_service` -/

/-- The service-start command list of `_start_ssh_service`, in source
order. -/
def start_commands : List String :=
  ["/usr/sbin/sshd -D &",
   "service ssh start",
   "systemctl start sshd",
   "rc-service sshd start",
   "/etc/init.d/ssh start"]

/-- The daemon invocation used by the detached fallback. -/
def sshd_daemon_cmd : String := "/usr/sbin/sshd -D"

/-- The loop of `_start_ssh_service`: first command exiting 0 wins (an
exception is caught and falls through); if all fail, `sshd` is launched
detached, and only an exception of that launch yields failure. -/
def start_go (c : Container) : List String → Bool × List Event
  | [] =>
    match c.exec (.detach sshd_daemon_cmd) with
    | none => (false, [Event.exec (.detach sshd_daemon_cmd)])
    | some _ => (true, [Event.exec (.detach sshd_daemon_cmd)])
  | cmd :: rest =>
    match c.exec (.sh cmd) with
    | none =>
      let r := start_go c rest
      (r.1, Event.exec (.sh cmd) :: r.2)
    | some result =>
      if result.exit_code = 0 then (true, [Event.exec (.sh cmd)])
      else
        let r := start_go c rest
        (r.1, Event.exec (.sh cmd) :: r.2)

/-- `_start_ssh_service` (the package-manager parameter is unused by the
source body). -/
def _start_ssh_service (c : Container) (package_manager : String) : Bool × List Event :=
  start_go c start_commands

/-! ## `_get_container_ip` -/

/-- `_get_container_ip`: prefer `NetworkSettings.IPAddress`; if it is empty
and a network attachment exists, take the first attachment entry (whose
`IPAddress` key may be missing, Python `None`).  An exception while reading
the attributes yields `none`. -/
def _get_container_ip (c : Container) : Option String :=
  match c.attrs with
  | none => none
  | some info =>
    if info.ip_address = "" then
      match info.networks with
      | [] => some info.ip_address
      | (_, first_network_ip) :: _ => first_network_ip
    else some info.ip_address

/-! ## `setup_ssh_in_container` -/

/-- `setup_ssh_in_container` on an already-resolved container, returning
the success flag and the event trace; `none` models an uncaught executor
exception escaping the call (possible only from `_setup_ssh_user` or
`_install_ssh_universal`, whose loops have no `try`).  The final
connectivity test (`test_ssh_connection`) is an external collaborator whose
boolean outcome is only printed, so only its invocation is recorded, as
`Event.sshTest ip`. -/
def setup_ssh_in_container (c : Container) (username password : String) :
    Option (Bool × List Event) :=
  let checkEv := Event.exec (.raw ssh_check_cmd)
  if _check_ssh_running c then some (true, [checkEv])
  else
    let det := detect_package_manager c
    match det.1 with
    | none =>
      (_install_ssh_universal c username password).map
        (fun r => (r.1, checkEv :: det.2 ++ r.2))
    | some package_manager =>
      let inst := _install_ssh_with_pm c package_manager username password
      if inst.1 then
        match _setup_ssh_user c username password with
        | none => none
        | some uevs =>
          let svc := _start_ssh_service c package_manager
          if svc.1 then
            let vevs :=
              match _get_container_ip c with
              | none => []
              | some ip => if ip = "" then [] else [Event.sshTest ip]
            some (true, checkEv :: det.2 ++ inst.2 ++ uevs ++ svc.2 ++ vevs)
          else some (false, checkEv :: det.2 ++ inst.2 ++ uevs ++ svc.2)
      else some (false, checkEv :: det.2 ++ inst.2)

/-! ## `generate_ansible_inventory` -/

/-- The per-container record assembled by `_extract_container_info` and
consumed by `generate_ansible_inventory` (the fields the inventory reads).
`package_manager` is the `detect_package_manager` result, possibly Python
`None`. -/
structure ContainerInfo where
  name : String
  id : String
  image : String
  status : String
  ip_address : String
  package_manager : Option String
deriving DecidableEq

/-- One step of the grouping loop of `generate_ansible_inventory`
(`groups` is a Python dict in insertion order: a missing key is appended,
an existing key has the container appended to its list). -/
def add_to_groups (groups : List (Option String × List ContainerInfo))
    (container : ContainerInfo) : List (Option String × List ContainerInfo) :=
  if groups.any (fun g => g.1 = container.package_manager) then
    groups.map (fun g =>
      if g.1 = container.package_manager then (g.1, g.2 ++ [container]) else g)
  else groups ++ [(container.package_manager, [container])]

/-- The grouping loop of `generate_ansible_inventory`. -/
def group_by_pm (containers_info : List ContainerInfo) :
    List (Option String × List ContainerInfo) :=
  containers_info.foldl add_to_groups []

/-- The host lines emitted by `generate_ansible_inventory`: for each group
in order, one entry per member container whose `ip_address` is non-empty,
tagged with the group key.  (The textual `[docker_*]` headers,
`all_docker` section and variable block carry no host entries.) -/
def host_entries_of : List (Option String × List ContainerInfo) →
    List (Option String × ContainerInfo)
  | [] => []
  | g :: rest =>
    (g.2.filter (fun container => container.ip_address ≠ "")).map
      (fun container => (g.1, container)) ++ host_entries_of rest

/-- All host entries of the generated inventory. -/
def host_entries (containers_info : List ContainerInfo) :
    List (Option String × ContainerInfo) :=
  host_entries_of (group_by_pm containers_info)

/-- The concatenation of all group member lists. -/
def group_members : List (Option String × List ContainerInfo) → List ContainerInfo
  | [] => []
  | g :: rest => g.2 ++ group_members rest

/-- The group keys, in emission order. -/
def group_keys (groups : List (Option String × List ContainerInfo)) : List (Option String) :=
  groups.map (fun g => g.1)

/-! ## Derived per-command predicates used by the theorems -/

/-- Does a shell-wrapped command report exit code 0 on this container?
(an executor exception counts as not succeeding). -/
def probe_succeeds (c : Container) (cmd : String) : Bool :=
  match c.exec (.sh cmd) with
  | none => false
  | some result => decide (result.exit_code = 0)

/-- Does a shell-wrapped command return (without raising) a non-zero exit
code on this container? -/
def cmd_returns_nonzero (c : Container) (cmd : String) : Bool :=
  match c.exec (.sh cmd) with
  | none => false
  | some result => decide (result.exit_code ≠ 0)

/-- The event sets of strategies 1 and 2, used to state the short-circuit
law. -/
def strategy1_events : List Event :=
  package_managers.map (fun p => Event.exec (.sh p.2))

/-- The executor events the release-file strategy can issue. -/
def strategy2_events : List Event :=
  release_files.map (fun f => Event.exec (.raw (cat_cmd f)))

/-- The keyword set of the release-file strategy (spec wording); used as a
hypothesis predicate for the implicit path-matching claim. -/
def release_keywords : List String :=
  ["alpine", "ubuntu", "debian", "centos", "rhel", "red hat", "fedora",
   "suse", "opensuse", "arch"]

/-- `content` contains no distribution keyword at all. -/
def no_release_keyword (content : String) : Bool :=
  release_keywords.all (fun kw => !strContains content kw)

/-! ## Concrete containers used by the witnesses -/

/-- An Alpine-like target: the `apk` version probe exits 0, sshd is not yet
running, every other command reports success, the address has not been
populated. -/
def alpine_like : Container where
  exec := fun e =>
    match e with
    | .raw cmd => if cmd = ssh_check_cmd then some ⟨1, ""⟩ else some ⟨0, "x"⟩
    | .sh _ => some ⟨0, "ok"⟩
    | .detach _ => some ⟨0, ""⟩
  image_tags := some ["alpine:3.18"]
  attrs := some ⟨"", []⟩

/-- A target on which every probe, file read and install attempt reports
exit code 1 with empty output, with an empty tag list. -/
def bare_target : Container where
  exec := fun _ => some ⟨1, ""⟩
  image_tags := some []
  attrs := some ⟨"", []⟩

/-- A target whose sshd-process probe reports a running daemon. -/
def running_target : Container where
  exec := fun e =>
    match e with
    | .raw cmd => if cmd = ssh_check_cmd then some ⟨0, "17 sshd"⟩ else some ⟨1, ""⟩
    | _ => some ⟨1, ""⟩
  image_tags := some []
  attrs := some ⟨"172.17.0.5", []⟩

/-- A Debian-like target: the version probes and file reads fail, detection
succeeds via the image tag (strategy 3), and every shell-wrapped command —
in particular the install command — exits 100. -/
def install_fail_target : Container where
  exec := fun e =>
    match e with
    | .sh _ => some ⟨100, "E: Unable to locate package"⟩
    | _ => some ⟨1, ""⟩
  image_tags := some ["debian:12"]
  attrs := some ⟨"", []⟩

/-- A target with no detectable package manager on which the `yum` fallback
one-liner (second in the universal list) exits 0. -/
def universal_yum_target : Container where
  exec := fun e =>
    match e with
    | .sh cmd =>
      if cmd = "yum install -y openssh-server sudo 2>/dev/null || true" then some ⟨0, "Complete!"⟩
      else some ⟨1, ""⟩
    | _ => some ⟨1, ""⟩
  image_tags := some []
  attrs := some ⟨"", []⟩

/-- A target on which every service-start command fails and the detached
daemon launch itself raises. -/
def detach_raises_target : Container where
  exec := fun e =>
    match e with
    | .detach _ => none
    | _ => some ⟨1, ""⟩
  image_tags := some []
  attrs := some ⟨"", []⟩

/-- A target whose release files are unreadable except
`/etc/debian_version`, which holds a bare version number. -/
def debian_file_target : Container where
  exec := fun e =>
    match e with
    | .raw cmd => if cmd = cat_cmd "/etc/debian_version" then some ⟨0, "12.4"⟩ else some ⟨1, ""⟩
    | _ => some ⟨1, ""⟩
  image_tags := some []
  attrs := some ⟨"", []⟩

/-- A target whose release files are unreadable except
`/etc/alpine-release`, which holds a bare version number. -/
def alpine_file_target : Container where
  exec := fun e =>
    match e with
    | .raw cmd => if cmd = cat_cmd "/etc/alpine-release" then some ⟨0, "3.18.0"⟩ else some ⟨1, ""⟩
    | _ => some ⟨1, ""⟩
  image_tags := some []
  attrs := some ⟨"", []⟩

/-- Two provisioned fleet records used by the inventory witness. -/
def info_web : ContainerInfo :=
  { name := "web", id := "aaa111", image := "alpine:3.18", status := "running"
    ip_address := "172.17.0.2", package_manager := some "apk" }

/-- Second fleet record, in a different package-manager group. -/
def info_db : ContainerInfo :=
  { name := "db", id := "bbb222", image := "debian:12", status := "running"
    ip_address := "172.17.0.3", package_manager := some "apt" }

end TestSSH

namespace TestSSH

/-! ## Generic early-return loop lemmas -/

/-- If every probe in the list fails (raises or exits non-zero), the direct
probe loop returns nothing and issues every probe in order. -/
theorem pm_go_all_fail (c : Container) :
    ∀ l : List (String × String), (∀ q ∈ l, probe_succeeds c q.2 = false) →
      pm_go c l = (none, l.map (fun q => Event.exec (.sh q.2)))
  | [], _ => rfl
  | (pm_name, check_cmd) :: rest, h => by
    have hhead : probe_succeeds c check_cmd = false := h _ (List.mem_cons_self _ _)
    have htail := pm_go_all_fail c rest (fun q hq => h q (List.mem_cons_of_mem _ hq))
    simp only [pm_go]
    cases hc : c.exec (.sh check_cmd) with
    | none => simp [htail]
    | some r =>
      have hr : ¬ r.exit_code = 0 := by
        simp [probe_succeeds, hc] at hhead; exact hhead
      simp [hr, htail]

/-- If every probe before `p` fails and `p`'s probe exits 0, the direct
probe loop returns `p`'s name having issued exactly the probes up to and
including `p`. -/
theorem pm_go_split (c : Container) :
    ∀ (l₁ : List (String × String)) (p : String × String) (l₂ : List (String × String)),
      (∀ q ∈ l₁, probe_succeeds c q.2 = false) →
      probe_succeeds c p.2 = true →
      pm_go c (l₁ ++ p :: l₂) =
        (some p.1, (l₁ ++ [p]).map (fun q => Event.exec (.sh q.2)))
  | [], p, l₂, _, hs => by
    obtain ⟨r, hr, hz⟩ : ∃ r, c.exec (.sh p.2) = some r ∧ r.exit_code = 0 := by
      unfold probe_succeeds at hs
      cases hc : c.exec (.sh p.2) with
      | none => rw [hc] at hs; exact absurd hs (by simp)
      | some r => rw [hc] at hs; exact ⟨r, rfl, of_decide_eq_true hs⟩
    simp only [List.nil_append, pm_go, hr, hz, if_pos]
    rfl
  | q :: l₁, p, l₂, hf, hs => by
    have hhead : probe_succeeds c q.2 = false := hf _ (List.mem_cons_self _ _)
    have htail := pm_go_split c l₁ p l₂ (fun x hx => hf x (List.mem_cons_of_mem _ hx)) hs
    simp only [List.cons_append, pm_go]
    cases hc : c.exec (.sh q.2) with
    | none => simp [htail]
    | some r =>
      have hr : ¬ r.exit_code = 0 := by
        simp [probe_succeeds, hc] at hhead; exact hhead
      simp [hr, htail]

/-- Every event the direct probe loop records is one of its own probe
commands. -/
theorem pm_go_events (c : Container) :
    ∀ l : List (String × String), ∀ e ∈ (pm_go c l).2,
      e ∈ l.map (fun q => Event.exec (.sh q.2))
  | [], e, he => by simp [pm_go] at he
  | (pm_name, check_cmd) :: rest, e, he => by
    simp only [pm_go] at he
    simp only [List.map_cons]
    cases hc : c.exec (.sh check_cmd) with
    | none =>
      rw [hc] at he
      simp only [List.mem_cons] at he ⊢
      rcases he with he | he
      · exact Or.inl he
      · exact Or.inr (pm_go_events c rest e he)
    | some r =>
      rw [hc] at he
      by_cases hz : r.exit_code = 0
      · simp only [if_pos hz, List.mem_singleton] at he
        simp [he]
      · simp only [if_neg hz, List.mem_cons] at he
        rcases he with he | he
        · simp [he]
        · exact List.mem_cons_of_mem _ (pm_go_events c rest e he)

/-- If no release file in the list yields a match, the release-file loop
returns nothing and issues every read in order. -/
theorem release_go_all_none (c : Container) :
    ∀ l : List String, (∀ f ∈ l, release_file_step c f = none) →
      release_go c l = (none, l.map (fun f => Event.exec (.raw (cat_cmd f))))
  | [], _ => rfl
  | f :: rest, h => by
    have hhead := h _ (List.mem_cons_self _ _)
    have htail := release_go_all_none c rest (fun g hg => h g (List.mem_cons_of_mem _ hg))
    simp [release_go, hhead, htail]

/-- If every release file before `f` yields no match and `f` yields `pm`,
the release-file loop returns `pm` having read exactly the files up to and
including `f`. -/
theorem release_go_split (c : Container) (pm : String) :
    ∀ (l₁ : List String) (f : String) (l₂ : List String),
      (∀ g ∈ l₁, release_file_step c g = none) →
      release_file_step c f = some pm →
      release_go c (l₁ ++ f :: l₂) =
        (some pm, (l₁ ++ [f]).map (fun g => Event.exec (.raw (cat_cmd g))))
  | [], f, l₂, _, hs => by simp [release_go, hs]
  | g :: l₁, f, l₂, hf, hs => by
    have hhead := hf _ (List.mem_cons_self _ _)
    have htail := release_go_split c pm l₁ f l₂ (fun x hx => hf x (List.mem_cons_of_mem _ hx)) hs
    simp [release_go, hhead, htail]

/-- Every event the release-file loop records is one of its own read
commands. -/
theorem release_go_events (c : Container) :
    ∀ l : List String, ∀ e ∈ (release_go c l).2,
      e ∈ l.map (fun f => Event.exec (.raw (cat_cmd f)))
  | [], e, he => by simp [release_go] at he
  | f :: rest, e, he => by
    simp only [release_go] at he
    simp only [List.map_cons]
    cases hc : release_file_step c f with
    | some pm =>
      rw [hc] at he
      simp only [List.mem_singleton] at he
      simp [he]
    | none =>
      rw [hc] at he
      simp only [List.mem_cons] at he ⊢
      rcases he with he | he
      · exact Or.inl he
      · exact Or.inr (release_go_events c rest e he)

/-! ## C6: the direct-probe strategy -/

/-- C6: the direct-probe strategy executes version probes in the fixed
source order `[apk, apt, yum, dnf, zypper, pacman]` and returns the first
manager whose probe exits 0; a probe that raises (`exec = none`, absorbed
by `probe_succeeds = false`) or exits non-zero just falls through to the
next candidate, and the loop is a total function (it never raises).  If the
`apk` probe exits 0, `detect_package_manager` returns `apk` having executed
only that one probe — in particular no release-file read is issued. -/
theorem direct_probe_first_success (c : Container) :
    (∀ (l₁ : List (String × String)) (p : String × String) (l₂ : List (String × String)),
       package_managers = l₁ ++ p :: l₂ →
       (∀ q ∈ l₁, probe_succeeds c q.2 = false) →
       probe_succeeds c p.2 = true →
       _check_package_managers_directly c =
         (some p.1, (l₁ ++ [p]).map (fun q => Event.exec (.sh q.2))))
  ∧ ((∀ q ∈ package_managers, probe_succeeds c q.2 = false) →
       _check_package_managers_directly c =
         (none, package_managers.map (fun q => Event.exec (.sh q.2))))
  ∧ (probe_succeeds c "apk --version 2>/dev/null" = true →
       detect_package_manager c =
         (some "apk", [Event.exec (.sh "apk --version 2>/dev/null")])) := by
  refine ⟨fun l₁ p l₂ heq hf hs => ?_, fun hf => ?_, fun hs => ?_⟩
  · rw [_check_package_managers_directly, heq]
    exact pm_go_split c l₁ p l₂ hf hs
  · exact pm_go_all_fail c package_managers hf
  · have h1 : _check_package_managers_directly c =
        (some "apk", [Event.exec (.sh "apk --version 2>/dev/null")]) := by
      have := pm_go_split c [] ("apk", "apk --version 2>/dev/null")
        (package_managers.drop 1) (by simp) hs
      exact this
    simp [detect_package_manager, h1]

/-- Witness for C6: on `alpine_like` the `apk` probe (first in order) exits
0, the loop stops there, and detection returns `apk` after that single
executor call. -/
theorem direct_probe_first_success_witness :
    _check_package_managers_directly alpine_like =
      (some "apk", [Event.exec (.sh "apk --version 2>/dev/null")]) ∧
    detect_package_manager alpine_like =
      (some "apk", [Event.exec (.sh "apk --version 2>/dev/null")]) :=
  ⟨(direct_probe_first_success alpine_like).1 [] ("apk", "apk --version 2>/dev/null")
      (package_managers.drop 1) rfl (by simp) (by decide),
   (direct_probe_first_success alpine_like).2.2 (by decide)⟩

/-! ## C1: the short-circuit law of the detection cascade -/

/-- C1: for every target and every detection pass, if strategy `k` of the
four-strategy cascade yields a result then the later strategies contribute
nothing: `detect_package_manager` returns exactly strategy `k`'s result and
its full event trace consists of the events of strategies `1..k` alone (for
`k ≤ 2` every event is a strategy-1 or strategy-2 command, so no strategy-3
metadata inspection and no strategy-4 command or check runs; for `k = 3`
the only extra event is the metadata inspection).  Since
`detect_package_manager` is a function, each target is assigned exactly one
package-manager kind per pass. -/
theorem detect_short_circuit (c : Container) (pm : String) :
    ((_check_package_managers_directly c).1 = some pm →
       detect_package_manager c = (some pm, (_check_package_managers_directly c).2) ∧
       ∀ e ∈ (detect_package_manager c).2, e ∈ strategy1_events)
  ∧ ((_check_package_managers_directly c).1 = none →
     (_check_os_release_files c).1 = some pm →
       detect_package_manager c =
         (some pm, (_check_package_managers_directly c).2 ++ (_check_os_release_files c).2) ∧
       ∀ e ∈ (detect_package_manager c).2, e ∈ strategy1_events ++ strategy2_events)
  ∧ ((_check_package_managers_directly c).1 = none →
     (_check_os_release_files c).1 = none →
     _check_image_metadata c = some pm →
       detect_package_manager c =
         (some pm, (_check_package_managers_directly c).2 ++ (_check_os_release_files c).2 ++
           [Event.imageInspect]) ∧
       ∀ e ∈ (detect_package_manager c).2,
         e ∈ strategy1_events ++ strategy2_events ++ [Event.imageInspect])
  ∧ ((_check_package_managers_directly c).1 = none →
     (_check_os_release_files c).1 = none →
     _check_image_metadata c = none →
       detect_package_manager c =
         ((_infer_from_available_commands c).1,
          (_check_package_managers_directly c).2 ++ (_check_os_release_files c).2 ++
            [Event.imageInspect] ++ (_infer_from_available_commands c).2)) := by
  refine ⟨fun h1 => ?_, fun h1 h2 => ?_, fun h1 h2 h3 => ?_, fun h1 h2 h3 => ?_⟩
  · have hd : detect_package_manager c =
        (some pm, (_check_package_managers_directly c).2) := by
      simp [detect_package_manager, h1]
    refine ⟨hd, ?_⟩
    rw [hd]
    intro e he
    exact pm_go_events c package_managers e he
  · have hd : detect_package_manager c =
        (some pm, (_check_package_managers_directly c).2 ++ (_check_os_release_files c).2) := by
      simp [detect_package_manager, h1, h2]
    refine ⟨hd, ?_⟩
    rw [hd]
    intro e he
    rcases List.mem_append.mp he with he | he
    · exact List.mem_append_left _ (pm_go_events c package_managers e he)
    · exact List.mem_append_right _ (release_go_events c release_files e he)
  · have hd : detect_package_manager c =
        (some pm, (_check_package_managers_directly c).2 ++ (_check_os_release_files c).2 ++
          [Event.imageInspect]) := by
      simp [detect_package_manager, h1, h2, h3]
    refine ⟨hd, ?_⟩
    rw [hd]
    intro e he
    rcases List.mem_append.mp he with he | he
    · rcases List.mem_append.mp he with he | he
      · exact List.mem_append_left _ (List.mem_append_left _
          (pm_go_events c package_managers e he))
      · exact List.mem_append_left _ (List.mem_append_right _
          (release_go_events c release_files e he))
    · exact List.mem_append_right _ he
  · simp [detect_package_manager, h1, h2, h3]

/-- Witness for C1: on `alpine_like` strategy 1 yields `apk`, so detection
returns it and the trace holds strategy-1 probe commands only. -/
theorem detect_short_circuit_witness :
    detect_package_manager alpine_like =
      (some "apk", (_check_package_managers_directly alpine_like).2) ∧
    ∀ e ∈ (detect_package_manager alpine_like).2, e ∈ strategy1_events :=
  (detect_short_circuit alpine_like "apk").1 (by decide)

/-! ## C2: idempotence via the running-daemon probe -/

/-- C2: if the initial sshd-process probe reports exit 0 with
non-whitespace output (an sshd process exists — in particular on a target
a previous successful provision left running), `setup_ssh_in_container`
returns success immediately, its whole event trace being that single probe:
zero install, user-configuration or service-start commands are issued. -/
theorem provision_idempotent (c : Container) (username password : String)
    (result : CommandResult)
    (hex : c.exec (.raw ssh_check_cmd) = some result)
    (h0 : result.exit_code = 0)
    (hne : py_strip result.output ≠ "") :
    _check_ssh_running c = true ∧
    setup_ssh_in_container c username password =
      some (true, [Event.exec (.raw ssh_check_cmd)]) := by
  have hch : _check_ssh_running c = true := by
    simp [_check_ssh_running, hex, h0, hne]
  exact ⟨hch, by simp [setup_ssh_in_container, hch]⟩

/-- Witness for C2: `running_target` reports a running sshd, so the second
provisioning run stops after the probe. -/
theorem provision_idempotent_witness :
    _check_ssh_running running_target = true ∧
    setup_ssh_in_container running_target "ansible" "ansible123" =
      some (true, [Event.exec (.raw ssh_check_cmd)]) :=
  provision_idempotent running_target "ansible" "ansible123" ⟨0, "17 sshd"⟩
    (by decide) rfl (by decide)

/-! ## C3: a failed install stops the pipeline -/

/-- C3: on a target whose detected kind has an install profile, if the
formatted install command returns a non-zero exit code then
`_install_ssh_with_pm` fails having issued only that command, and
`setup_ssh_in_container` reports failure with a trace that ends at the
install command: no post-install, user-setup or service-start command is
issued afterwards. -/
theorem install_failure_stops (c : Container) (username password pm : String)
    (template : InstallTemplate) (result : CommandResult)
    (hrun : _check_ssh_running c = false)
    (hdet : (detect_package_manager c).1 = some pm)
    (htmpl : INSTALL_TEMPLATES.lookup pm = some template)
    (hexec : c.exec (.sh (install_command template)) = some result)
    (hnz : result.exit_code ≠ 0) :
    _install_ssh_with_pm c pm username password =
      (false, [Event.exec (.sh (install_command template))]) ∧
    setup_ssh_in_container c username password =
      some (false, Event.exec (.raw ssh_check_cmd) :: (detect_package_manager c).2 ++
        [Event.exec (.sh (install_command template))]) := by
  have hins : _install_ssh_with_pm c pm username password =
      (false, [Event.exec (.sh (install_command template))]) := by
    simp [_install_ssh_with_pm, htmpl, hexec, hnz]
  refine ⟨hins, ?_⟩
  simp [setup_ssh_in_container, hrun, hdet, hins]

/-- Witness for C3: `install_fail_target` is detected as `apt` and its
install command exits 100, so provisioning fails right after the install
command. -/
theorem install_failure_stops_witness :
    setup_ssh_in_container install_fail_target "ansible" "ansible123" =
      some (false, Event.exec (.raw ssh_check_cmd) ::
        (detect_package_manager install_fail_target).2 ++
        [Event.exec (.sh (install_command apt_template))]) :=
  (install_failure_stops install_fail_target "ansible" "ansible123" "apt" apt_template
    ⟨100, "E: Unable to locate package"⟩
    (by decide) (by decide) (by decide) (by decide) (by decide)).2

/-! ## C4: inconclusive detection is non-fatal -/

/-- C4: when all four strategies yield nothing, `detect_package_manager`
returns the no-result marker (Python `None`, the specification's
`unknown`) — no exception is raised, detection being a total function —
and provisioning proceeds with the universal fallback installer:
`setup_ssh_in_container` returns exactly the universal installer's outcome
(its trace prefixed by the probe and detection events). -/
theorem detect_all_fail_unknown (c : Container) (username password : String)
    (h1 : (_check_package_managers_directly c).1 = none)
    (h2 : (_check_os_release_files c).1 = none)
    (h3 : _check_image_metadata c = none)
    (h4 : (_infer_from_available_commands c).1 = none) :
    (detect_package_manager c).1 = none ∧
    (_check_ssh_running c = false →
      setup_ssh_in_container c username password =
        (_install_ssh_universal c username password).map
          (fun r => (r.1, Event.exec (.raw ssh_check_cmd) ::
            (detect_package_manager c).2 ++ r.2))) := by
  have hd : (detect_package_manager c).1 = none := by
    simp [detect_package_manager, h1, h2, h3, h4]
  refine ⟨hd, fun hrun => ?_⟩
  simp [setup_ssh_in_container, hrun, hd]

/-- Witness for C4: on `bare_target` every strategy comes up empty and
provisioning falls through to the universal installer. -/
theorem detect_all_fail_unknown_witness :
    (detect_package_manager bare_target).1 = none ∧
    setup_ssh_in_container bare_target "ansible" "ansible123" =
      (_install_ssh_universal bare_target "ansible" "ansible123").map
        (fun r => (r.1, Event.exec (.raw ssh_check_cmd) ::
          (detect_package_manager bare_target).2 ++ r.2)) := by
  have h := detect_all_fail_unknown bare_target "ansible" "ansible123"
    (by decide) (by decide) (by decide) (by decide)
  exact ⟨h.1, h.2 (by decide)⟩

/-! ## C5: the universal fallback installer -/

/-- A successful shell probe yields a concrete result with exit code 0. -/
theorem probe_succeeds_elim (c : Container) (cmd : String)
    (h : probe_succeeds c cmd = true) :
    ∃ r, c.exec (.sh cmd) = some r ∧ r.exit_code = 0 := by
  unfold probe_succeeds at h
  cases hc : c.exec (.sh cmd) with
  | none => rw [hc] at h; exact absurd h (by simp)
  | some r => rw [hc] at h; exact ⟨r, rfl, of_decide_eq_true h⟩

/-- A soft-failing shell command yields a concrete result with a non-zero
exit code. -/
theorem cmd_returns_nonzero_elim (c : Container) (cmd : String)
    (h : cmd_returns_nonzero c cmd = true) :
    ∃ r, c.exec (.sh cmd) = some r ∧ r.exit_code ≠ 0 := by
  unfold cmd_returns_nonzero at h
  cases hc : c.exec (.sh cmd) with
  | none => rw [hc] at h; exact absurd h (by simp)
  | some r => rw [hc] at h; exact ⟨r, rfl, of_decide_eq_true h⟩

/-- If every fallback one-liner in the list returns a non-zero exit, the
universal loop reports failure having issued all of them in order. -/
theorem universal_go_all_nonzero (c : Container) :
    ∀ l : List String, (∀ b ∈ l, cmd_returns_nonzero c b = true) →
      universal_go c l = some (false, l.map (fun b => Event.exec (.sh b)))
  | [], _ => rfl
  | b :: rest, h => by
    obtain ⟨r, hr, hz⟩ := cmd_returns_nonzero_elim c b (h _ (List.mem_cons_self _ _))
    have htail := universal_go_all_nonzero c rest (fun x hx => h x (List.mem_cons_of_mem _ hx))
    simp [universal_go, hr, hz, htail]

/-- If every fallback one-liner before `a` returns non-zero and `a` exits 0,
the universal loop reports success having issued exactly the one-liners up
to and including `a`. -/
theorem universal_go_split (c : Container) :
    ∀ (l₁ : List String) (a : String) (l₂ : List String),
      (∀ b ∈ l₁, cmd_returns_nonzero c b = true) →
      probe_succeeds c a = true →
      universal_go c (l₁ ++ a :: l₂) =
        some (true, (l₁ ++ [a]).map (fun b => Event.exec (.sh b)))
  | [], a, l₂, _, hs => by
    obtain ⟨r, hr, hz⟩ := probe_succeeds_elim c a hs
    simp [universal_go, hr, hz]
  | b :: l₁, a, l₂, hf, hs => by
    obtain ⟨r, hr, hz⟩ := cmd_returns_nonzero_elim c b (hf _ (List.mem_cons_self _ _))
    have htail := universal_go_split c l₁ a l₂ (fun x hx => hf x (List.mem_cons_of_mem _ hx)) hs
    simp [universal_go, hr, hz, htail]

/-- C5: for a target whose kind could not be detected, the universal
fallback runs its one-liners in the fixed source order [apt, yum, apk, dnf]
(the order of `universal_approaches`), accepts the first whose execution
reports exit code 0 — issuing none of the later one-liners — and reports
`InstallFailed` (returns `False`) when all four report non-zero.  (An
executor exception in this loop would propagate, so the hypotheses require
returned exit codes.) -/
theorem universal_fallback_order (c : Container) (username password : String) :
    (∀ (l₁ : List String) (a : String) (l₂ : List String),
       universal_approaches = l₁ ++ a :: l₂ →
       (∀ b ∈ l₁, cmd_returns_nonzero c b = true) →
       probe_succeeds c a = true →
       _install_ssh_universal c username password =
         some (true, (l₁ ++ [a]).map (fun b => Event.exec (.sh b))))
  ∧ ((∀ b ∈ universal_approaches, cmd_returns_nonzero c b = true) →
       _install_ssh_universal c username password =
         some (false, universal_approaches.map (fun b => Event.exec (.sh b)))) := by
  refine ⟨fun l₁ a l₂ heq hf hs => ?_, fun hf => ?_⟩
  · rw [_install_ssh_universal, heq]
    exact universal_go_split c l₁ a l₂ hf hs
  · exact universal_go_all_nonzero c universal_approaches hf

/-- Witness for C5: on `universal_yum_target` the apt one-liner returns
non-zero and the yum one-liner (second in order) exits 0, so the loop stops
there; `bare_target` fails all four and yields failure. -/
theorem universal_fallback_order_witness :
    _install_ssh_universal universal_yum_target "ansible" "ansible123" =
      some (true,
        [Event.exec (.sh "apt-get update && apt-get install -y openssh-server sudo 2>/dev/null || true"),
         Event.exec (.sh "yum install -y openssh-server sudo 2>/dev/null || true")]) ∧
    _install_ssh_universal bare_target "ansible" "ansible123" =
      some (false, universal_approaches.map (fun b => Event.exec (.sh b))) :=
  ⟨(universal_fallback_order universal_yum_target "ansible" "ansible123").1
      ["apt-get update && apt-get install -y openssh-server sudo 2>/dev/null || true"]
      "yum install -y openssh-server sudo 2>/dev/null || true"
      (universal_approaches.drop 2) rfl (by decide) (by decide),
   (universal_fallback_order bare_target "ansible" "ansible123").2 (by decide)⟩

/-! ## C7: the service-start stage -/

/-- If every service-start command in the list fails (raises or exits
non-zero), the loop falls back to the detached daemon launch: the outcome
is success iff that launch does not raise, and the trace is all the
commands followed by the detached launch. -/
theorem start_go_all_fail (c : Container) :
    ∀ l : List String, (∀ b ∈ l, probe_succeeds c b = false) →
      start_go c l = ((c.exec (.detach sshd_daemon_cmd)).isSome,
        l.map (fun b => Event.exec (.sh b)) ++ [Event.exec (.detach sshd_daemon_cmd)])
  | [], _ => by
    cases hc : c.exec (.detach sshd_daemon_cmd) with
    | none => simp [start_go, hc]
    | some r => simp [start_go, hc]
  | b :: rest, h => by
    have hhead : probe_succeeds c b = false := h _ (List.mem_cons_self _ _)
    have htail := start_go_all_fail c rest (fun x hx => h x (List.mem_cons_of_mem _ hx))
    simp only [start_go]
    cases hc : c.exec (.sh b) with
    | none => simp [htail]
    | some r =>
      have hr : ¬ r.exit_code = 0 := by
        simp [probe_succeeds, hc] at hhead; exact hhead
      simp [hr, htail]

/-- If every service-start command before `cmd` fails and `cmd` exits 0,
the loop succeeds having issued exactly the commands up to and including
`cmd` — in particular no detached launch. -/
theorem start_go_split (c : Container) :
    ∀ (l₁ : List String) (cmd : String) (l₂ : List String),
      (∀ b ∈ l₁, probe_succeeds c b = false) →
      probe_succeeds c cmd = true →
      start_go c (l₁ ++ cmd :: l₂) =
        (true, (l₁ ++ [cmd]).map (fun b => Event.exec (.sh b)))
  | [], cmd, l₂, _, hs => by
    obtain ⟨r, hr, hz⟩ := probe_succeeds_elim c cmd hs
    simp [start_go, hr, hz]
  | b :: l₁, cmd, l₂, hf, hs => by
    have hhead : probe_succeeds c b = false := hf _ (List.mem_cons_self _ _)
    have htail := start_go_split c l₁ cmd l₂ (fun x hx => hf x (List.mem_cons_of_mem _ hx)) hs
    simp only [List.cons_append, start_go]
    cases hc : c.exec (.sh b) with
    | none => simp [htail]
    | some r =>
      have hr : ¬ r.exit_code = 0 := by
        simp [probe_succeeds, hc] at hhead; exact hhead
      simp [hr, htail]

/-- The service-start loop reports failure only when every listed command
failed and the detached launch raised. -/
theorem start_go_false (c : Container) :
    ∀ l : List String, (start_go c l).1 = false →
      (∀ b ∈ l, probe_succeeds c b = false) ∧ c.exec (.detach sshd_daemon_cmd) = none
  | [], h => by
    cases hc : c.exec (.detach sshd_daemon_cmd) with
    | none => exact ⟨by simp, rfl⟩
    | some r => rw [start_go, hc] at h; simp at h
  | b :: rest, h => by
    simp only [start_go] at h
    cases hc : c.exec (.sh b) with
    | none =>
      rw [hc] at h
      dsimp only at h
      have ih := start_go_false c rest h
      refine ⟨?_, ih.2⟩
      intro x hx
      rcases List.mem_cons.mp hx with hx | hx
      · subst hx; simp [probe_succeeds, hc]
      · exact ih.1 x hx
    | some r =>
      rw [hc] at h
      dsimp only at h
      by_cases hz : r.exit_code = 0
      · rw [if_pos hz] at h; simp at h
      · rw [if_neg hz] at h
        dsimp only at h
        have ih := start_go_false c rest h
        refine ⟨?_, ih.2⟩
        intro x hx
        rcases List.mem_cons.mp hx with hx | hx
        · subst hx; simp [probe_succeeds, hc, hz]
        · exact ih.1 x hx

/-- C7: `_start_ssh_service` tries its commands in the fixed source order
[backgrounded sshd, `service ssh start`, `systemctl start sshd`,
`rc-service sshd start`, `/etc/init.d/ssh start`]; the first exit-0 command
ends the stage successfully (no later command, no detached launch); if all
five fail, sshd is launched detached and the stage fails only if that
launch itself raises — equivalently, a `False` outcome implies all five
commands failed and the detached launch raised. -/
theorem service_start_order (c : Container) (package_manager : String) :
    (∀ (l₁ : List String) (cmd : String) (l₂ : List String),
       start_commands = l₁ ++ cmd :: l₂ →
       (∀ b ∈ l₁, probe_succeeds c b = false) →
       probe_succeeds c cmd = true →
       _start_ssh_service c package_manager =
         (true, (l₁ ++ [cmd]).map (fun b => Event.exec (.sh b))))
  ∧ ((∀ b ∈ start_commands, probe_succeeds c b = false) →
       _start_ssh_service c package_manager =
         ((c.exec (.detach sshd_daemon_cmd)).isSome,
          start_commands.map (fun b => Event.exec (.sh b)) ++
            [Event.exec (.detach sshd_daemon_cmd)]))
  ∧ ((_start_ssh_service c package_manager).1 = false →
       (∀ b ∈ start_commands, probe_succeeds c b = false) ∧
       c.exec (.detach sshd_daemon_cmd) = none) := by
  refine ⟨fun l₁ cmd l₂ heq hf hs => ?_, fun hf => ?_, fun h => ?_⟩
  · rw [_start_ssh_service, heq]
    exact start_go_split c l₁ cmd l₂ hf hs
  · exact start_go_all_fail c start_commands hf
  · exact start_go_false c start_commands h

/-- Witness for C7: `bare_target` fails all five start commands but its
detached launch returns, so the stage succeeds; `detach_raises_target`
additionally raises on the detached launch, so its stage fails. -/
theorem service_start_order_witness :
    _start_ssh_service bare_target "apt" =
      (true, start_commands.map (fun b => Event.exec (.sh b)) ++
        [Event.exec (.detach sshd_daemon_cmd)]) ∧
    ((∀ b ∈ start_commands, probe_succeeds detach_raises_target b = false) ∧
      detach_raises_target.exec (.detach sshd_daemon_cmd) = none) :=
  ⟨(service_start_order bare_target "apt").2.1 (by decide),
   (service_start_order detach_raises_target "apt").2.2 (by decide)⟩

/-! ## C10: the release-file strategy matches file paths -/

/-- C10 (implicit behaviour): the release-file strategy matches the file
path as well as the content.  If the earlier release files yield no match
and the read of `/etc/debian_version` (resp. `/etc/alpine-release`) exits 0
with non-empty output, the strategy returns `apt` (resp. `apk`) even when
the content holds no distribution keyword, because the keyword cascade also
tests `"debian" in release_file` (resp. `"alpine" in release_file`). -/
theorem release_file_path_match (c : Container) (rd ra : CommandResult) :
    ((∀ f ∈ ["/etc/os-release", "/etc/lsb-release", "/etc/redhat-release"],
        release_file_step c f = none) →
      c.exec (.raw (cat_cmd "/etc/debian_version")) = some rd →
      rd.exit_code = 0 → rd.output ≠ "" →
      no_release_keyword (py_lower rd.output) = true →
      (_check_os_release_files c).1 = some "apt")
  ∧ ((∀ f ∈ ["/etc/os-release", "/etc/lsb-release", "/etc/redhat-release",
        "/etc/debian_version"], release_file_step c f = none) →
      c.exec (.raw (cat_cmd "/etc/alpine-release")) = some ra →
      ra.exit_code = 0 → ra.output ≠ "" →
      no_release_keyword (py_lower ra.output) = true →
      (_check_os_release_files c).1 = some "apk") := by
  constructor
  · intro hpre hex h0 hne hkw
    have hk : ∀ kw ∈ release_keywords, strContains (py_lower rd.output) kw = false := by
      intro kw hkw2
      simp only [no_release_keyword, List.all_eq_true] at hkw
      simpa using hkw kw hkw2
    have ha := hk "alpine" (by simp [release_keywords])
    have hu := hk "ubuntu" (by simp [release_keywords])
    have hdb := hk "debian" (by simp [release_keywords])
    have hp1 : strContains "/etc/debian_version" "alpine" = false := by decide
    have hp2 : strContains "/etc/debian_version" "debian" = true := by decide
    have hstep : release_file_step c "/etc/debian_version" = some "apt" := by
      simp [release_file_step, hex, h0, hne, ha, hu, hdb, hp1, hp2]
    have hsplit := release_go_split c "apt"
      ["/etc/os-release", "/etc/lsb-release", "/etc/redhat-release"]
      "/etc/debian_version" ["/etc/alpine-release", "/etc/centos-release"] hpre hstep
    have hrw : _check_os_release_files c =
        (some "apt",
         (["/etc/os-release", "/etc/lsb-release", "/etc/redhat-release"] ++
           ["/etc/debian_version"]).map (fun g => Event.exec (.raw (cat_cmd g)))) := hsplit
    rw [hrw]
  · intro hpre hex h0 hne hkw
    have hp : strContains "/etc/alpine-release" "alpine" = true := by decide
    have hstep : release_file_step c "/etc/alpine-release" = some "apk" := by
      simp [release_file_step, hex, h0, hne, hp]
    have hsplit := release_go_split c "apk"
      ["/etc/os-release", "/etc/lsb-release", "/etc/redhat-release", "/etc/debian_version"]
      "/etc/alpine-release" ["/etc/centos-release"] hpre hstep
    have hrw : _check_os_release_files c =
        (some "apk",
         (["/etc/os-release", "/etc/lsb-release", "/etc/redhat-release",
           "/etc/debian_version"] ++
           ["/etc/alpine-release"]).map (fun g => Event.exec (.raw (cat_cmd g)))) := hsplit
    rw [hrw]

/-- Witness for C10: a target whose `/etc/debian_version` holds the bare
version `12.4` resolves to `apt`, and one whose `/etc/alpine-release` holds
`3.18.0` resolves to `apk`, though neither content has any keyword. -/
theorem release_file_path_match_witness :
    (_check_os_release_files debian_file_target).1 = some "apt" ∧
    (_check_os_release_files alpine_file_target).1 = some "apk" :=
  ⟨(release_file_path_match debian_file_target ⟨0, "12.4"⟩ ⟨0, "12.4"⟩).1
      (by decide) (by decide) rfl (by decide) (by decide),
   (release_file_path_match alpine_file_target ⟨0, "3.18.0"⟩ ⟨0, "3.18.0"⟩).2
      (by decide) (by decide) rfl (by decide) (by decide)⟩

/-! ## C8: verification is diagnostic, not gating -/

/-- An event drawn from a mapped executor-command list is never the SSH
connectivity test. -/
theorem mem_map_exec_no_test {α : Type} (f : α → ExecCmd) (l : List α) (e : Event)
    (he : e ∈ l.map (fun x => Event.exec (f x))) : is_ssh_test e = false := by
  obtain ⟨x, hx, rfl⟩ := List.mem_map.mp he
  rfl

/-- The config-file loop of strategy 4 never records an SSH test. -/
theorem no_ssh_test_config_go (c : Container) :
    ∀ l : List (String × String), ∀ e ∈ (config_go c l).2, is_ssh_test e = false
  | [], e, he => by simp [config_go] at he
  | (pm_name, config_file) :: rest, e, he => by
    simp only [config_go] at he
    cases hc : c.exec (.raw (ls_cmd config_file)) with
    | none =>
      rw [hc] at he; dsimp only at he
      rcases List.mem_cons.mp he with he | he
      · subst he; rfl
      · exact no_ssh_test_config_go c rest e he
    | some r =>
      rw [hc] at he; dsimp only at he
      by_cases hcond : r.exit_code = 0 ∧ r.output ≠ ""
      · rw [if_pos hcond] at he
        have := List.mem_singleton.mp he; subst this; rfl
      · rw [if_neg hcond] at he; dsimp only at he
        rcases List.mem_cons.mp he with he | he
        · subst he; rfl
        · exact no_ssh_test_config_go c rest e he

/-- The state-directory loop of strategy 4 never records an SSH test. -/
theorem no_ssh_test_dirs_go (c : Container) :
    ∀ l : List (String × String), ∀ e ∈ (dirs_go c l).2, is_ssh_test e = false
  | [], e, he => by simp [dirs_go] at he
  | (pm_name, check_cmd) :: rest, e, he => by
    simp only [dirs_go] at he
    cases hc : c.exec (.sh check_cmd) with
    | none =>
      rw [hc] at he; dsimp only at he
      rcases List.mem_cons.mp he with he | he
      · subst he; rfl
      · exact no_ssh_test_dirs_go c rest e he
    | some r =>
      rw [hc] at he; dsimp only at he
      by_cases hcond : r.exit_code = 0 ∧ r.output ≠ ""
      · rw [if_pos hcond] at he
        have := List.mem_singleton.mp he; subst this; rfl
      · rw [if_neg hcond] at he; dsimp only at he
        rcases List.mem_cons.mp he with he | he
        · subst he; rfl
        · exact no_ssh_test_dirs_go c rest e he

/-- Strategy 4 never records an SSH test. -/
theorem no_ssh_test_infer (c : Container) :
    ∀ e ∈ (_infer_from_available_commands c).2, is_ssh_test e = false := by
  intro e he
  simp only [_infer_from_available_commands] at he
  cases hcfg : (config_go c config_files).1 with
  | some pm =>
    rw [hcfg] at he; dsimp only at he
    exact no_ssh_test_config_go c config_files e he
  | none =>
    rw [hcfg] at he; dsimp only at he
    rcases List.mem_append.mp he with he | he
    · exact no_ssh_test_config_go c config_files e he
    · exact no_ssh_test_dirs_go c dir_checks e he

/-- Detection never records an SSH test. -/
theorem no_ssh_test_detect (c : Container) :
    ∀ e ∈ (detect_package_manager c).2, is_ssh_test e = false := by
  intro e he
  have hs1 : ∀ x ∈ (_check_package_managers_directly c).2, is_ssh_test x = false :=
    fun x hx => mem_map_exec_no_test (fun q => .sh q.2) package_managers x
      (pm_go_events c package_managers x hx)
  have hs2 : ∀ x ∈ (_check_os_release_files c).2, is_ssh_test x = false :=
    fun x hx => mem_map_exec_no_test (fun f => .raw (cat_cmd f)) release_files x
      (release_go_events c release_files x hx)
  simp only [detect_package_manager] at he
  cases h1 : (_check_package_managers_directly c).1 with
  | some pm =>
    rw [h1] at he; dsimp only at he
    exact hs1 e he
  | none =>
    rw [h1] at he; dsimp only at he
    cases h2 : (_check_os_release_files c).1 with
    | some pm =>
      rw [h2] at he; dsimp only at he
      rcases List.mem_append.mp he with he | he
      · exact hs1 e he
      · exact hs2 e he
    | none =>
      rw [h2] at he; dsimp only at he
      cases h3 : _check_image_metadata c with
      | some pm =>
        rw [h3] at he; dsimp only at he
        rcases List.mem_append.mp he with he | he
        · rcases List.mem_append.mp he with he | he
          · exact hs1 e he
          · exact hs2 e he
        · have := List.mem_singleton.mp he; subst this; rfl
      | none =>
        rw [h3] at he; dsimp only at he
        rcases List.mem_append.mp he with he | he
        · rcases List.mem_append.mp he with he | he
          · rcases List.mem_append.mp he with he | he
            · exact hs1 e he
            · exact hs2 e he
          · have := List.mem_singleton.mp he; subst this; rfl
        · exact no_ssh_test_infer c e he

/-- The post-install loop never records an SSH test. -/
theorem no_ssh_test_post (c : Container) :
    ∀ l : List String, ∀ e ∈ (run_post_install c l).2, is_ssh_test e = false
  | [], e, he => by simp [run_post_install] at he
  | post_cmd :: rest, e, he => by
    simp only [run_post_install] at he
    cases hc : c.exec (.sh post_cmd) with
    | none =>
      rw [hc] at he; dsimp only at he
      have := List.mem_singleton.mp he; subst this; rfl
    | some r =>
      rw [hc] at he; dsimp only at he
      rcases List.mem_cons.mp he with he | he
      · subst he; rfl
      · exact no_ssh_test_post c rest e he

/-- The install stage never records an SSH test. -/
theorem no_ssh_test_install (c : Container) (pm username password : String) :
    ∀ e ∈ (_install_ssh_with_pm c pm username password).2, is_ssh_test e = false := by
  intro e he
  simp only [_install_ssh_with_pm] at he
  cases ht : INSTALL_TEMPLATES.lookup pm with
  | none => rw [ht] at he; simp at he
  | some template =>
    rw [ht] at he; dsimp only at he
    cases hc : c.exec (.sh (install_command template)) with
    | none =>
      rw [hc] at he; dsimp only at he
      have := List.mem_singleton.mp he; subst this; rfl
    | some r =>
      rw [hc] at he; dsimp only at he
      by_cases hz : r.exit_code ≠ 0
      · rw [if_pos hz] at he
        have := List.mem_singleton.mp he; subst this; rfl
      · rw [if_neg hz] at he; dsimp only at he
        rcases List.mem_cons.mp he with he | he
        · subst he; rfl
        · exact no_ssh_test_post c template.post_install e he

/-- A completing user-setup stage records exactly one shell event per
user-configuration command. -/
theorem user_go_eq (c : Container) :
    ∀ (l : List String) (evs : List Event), user_go c l = some evs →
      evs = l.map (fun cmd => Event.exec (.sh cmd))
  | [], evs, h => by
    simp only [user_go, Option.some.injEq] at h
    subst h; rfl
  | cmd :: rest, evs, h => by
    simp only [user_go] at h
    cases hc : c.exec (.sh cmd) with
    | none => rw [hc] at h; simp at h
    | some r =>
      rw [hc] at h; dsimp only at h
      cases hrec : user_go c rest with
      | none => rw [hrec] at h; simp at h
      | some evs2 =>
        rw [hrec] at h
        simp only [Option.map_some', Option.some.injEq] at h
        have ih := user_go_eq c rest evs2 hrec
        subst h
        simp [ih]

/-- The service-start stage never records an SSH test. -/
theorem no_ssh_test_start (c : Container) :
    ∀ l : List String, ∀ e ∈ (start_go c l).2, is_ssh_test e = false
  | [], e, he => by
    simp only [start_go] at he
    cases hc : c.exec (.detach sshd_daemon_cmd) with
    | none =>
      rw [hc] at he; dsimp only at he
      have := List.mem_singleton.mp he; subst this; rfl
    | some r =>
      rw [hc] at he; dsimp only at he
      have := List.mem_singleton.mp he; subst this; rfl
  | cmd :: rest, e, he => by
    simp only [start_go] at he
    cases hc : c.exec (.sh cmd) with
    | none =>
      rw [hc] at he; dsimp only at he
      rcases List.mem_cons.mp he with he | he
      · subst he; rfl
      · exact no_ssh_test_start c rest e he
    | some r =>
      rw [hc] at he; dsimp only at he
      by_cases hz : r.exit_code = 0
      · rw [if_pos hz] at he
        have := List.mem_singleton.mp he; subst this; rfl
      · rw [if_neg hz] at he; dsimp only at he
        rcases List.mem_cons.mp he with he | he
        · subst he; rfl
        · exact no_ssh_test_start c rest e he

/-- C8: verification is diagnostic, not gating.  On a target where the
install, user-setup and service-start stages complete, provisioning
returns success whatever the connectivity test would report (the test's
outcome is only printed, so the success result below holds with no
assumption on it); with a resolved non-empty address the test is invoked
as the final event, and with no resolvable address (a `None`/empty
primary-IP resolution) the test is never invoked yet the outcome is still
success.  Address resolution prefers the primary IP field and otherwise
takes the first network-attachment entry. -/
theorem verify_diagnostic (c : Container) (username password pm : String)
    (uevs : List Event)
    (hrun : _check_ssh_running c = false)
    (hdet : (detect_package_manager c).1 = some pm)
    (hins : (_install_ssh_with_pm c pm username password).1 = true)
    (husr : _setup_ssh_user c username password = some uevs)
    (hsvc : (_start_ssh_service c pm).1 = true) :
    (∀ ip, _get_container_ip c = some ip → ip ≠ "" →
       setup_ssh_in_container c username password =
         some (true, Event.exec (.raw ssh_check_cmd) :: (detect_package_manager c).2 ++
           (_install_ssh_with_pm c pm username password).2 ++ uevs ++
           (_start_ssh_service c pm).2 ++ [Event.sshTest ip]))
  ∧ (_get_container_ip c = none ∨ _get_container_ip c = some "" →
       setup_ssh_in_container c username password =
         some (true, Event.exec (.raw ssh_check_cmd) :: (detect_package_manager c).2 ++
           (_install_ssh_with_pm c pm username password).2 ++ uevs ++
           (_start_ssh_service c pm).2) ∧
       ∀ ip2, Event.sshTest ip2 ∉
         (Event.exec (.raw ssh_check_cmd) :: (detect_package_manager c).2 ++
           (_install_ssh_with_pm c pm username password).2 ++ uevs ++
           (_start_ssh_service c pm).2))
  ∧ (∀ a, c.attrs = some a →
       (a.ip_address ≠ "" → _get_container_ip c = some a.ip_address) ∧
       (a.ip_address = "" → ∀ nm ipo rest2, a.networks = (nm, ipo) :: rest2 →
          _get_container_ip c = ipo)) := by
  have hmem : ∀ ip2, Event.sshTest ip2 ∉
      (Event.exec (.raw ssh_check_cmd) :: (detect_package_manager c).2 ++
        (_install_ssh_with_pm c pm username password).2 ++ uevs ++
        (_start_ssh_service c pm).2) := by
    intro ip2 hmem
    rcases List.mem_cons.mp hmem with h | h
    · exact Event.noConfusion h
    · have htest : is_ssh_test (Event.sshTest ip2) = false := by
        rcases List.mem_append.mp h with h | h
        · rcases List.mem_append.mp h with h | h
          · rcases List.mem_append.mp h with h | h
            · exact no_ssh_test_detect c _ h
            · exact no_ssh_test_install c pm username password _ h
          · have huevs := user_go_eq c (create_user_cmds username password) uevs husr
            rw [huevs] at h
            exact mem_map_exec_no_test (fun cmd => .sh cmd) _ _ h
        · exact no_ssh_test_start c start_commands _ h
      simp [is_ssh_test] at htest
  refine ⟨fun ip hip hipne => ?_, fun hnone => ⟨?_, hmem⟩,
    fun a ha => ⟨fun hne2 => ?_, fun heq2 nm ipo rest2 hn => ?_⟩⟩
  · simp [setup_ssh_in_container, hrun, hdet, hins, husr, hsvc, hip, hipne]
  · rcases hnone with h | h <;>
      simp [setup_ssh_in_container, hrun, hdet, hins, husr, hsvc, h]
  · simp [_get_container_ip, ha, hne2]
  · simp [_get_container_ip, ha, heq2, hn]

/-- Witness for C8: on `alpine_like` the whole pipeline completes but the
address resolves to the empty string, so no connectivity test is run and
the outcome is still success. -/
theorem verify_diagnostic_witness :
    setup_ssh_in_container alpine_like "ansible" "ansible123" =
      some (true, Event.exec (.raw ssh_check_cmd) :: (detect_package_manager alpine_like).2 ++
        (_install_ssh_with_pm alpine_like "apk" "ansible" "ansible123").2 ++
        ((create_user_cmds "ansible" "ansible123").map (fun cmd => Event.exec (.sh cmd))) ++
        (_start_ssh_service alpine_like "apk").2) ∧
    ∀ ip2, Event.sshTest ip2 ∉
      (Event.exec (.raw ssh_check_cmd) :: (detect_package_manager alpine_like).2 ++
        (_install_ssh_with_pm alpine_like "apk" "ansible" "ansible123").2 ++
        ((create_user_cmds "ansible" "ansible123").map (fun cmd => Event.exec (.sh cmd))) ++
        (_start_ssh_service alpine_like "apk").2) :=
  (verify_diagnostic alpine_like "ansible" "ansible123" "apk"
      ((create_user_cmds "ansible" "ansible123").map (fun cmd => Event.exec (.sh cmd)))
      (by decide) (by decide) (by decide) rfl (by decide)).2.1
    (Or.inr (by decide))

/-! ## C9: the inventory groups partition the fleet -/

/-- Appending a container to the group of its key leaves all group keys
unchanged. -/
theorem add_map_keys (k : Option String) (cinfo : ContainerInfo) :
    ∀ gs : List (Option String × List ContainerInfo),
      group_keys (gs.map (fun g => if g.1 = k then (g.1, g.2 ++ [cinfo]) else g)) =
        group_keys gs
  | [] => rfl
  | g :: rest => by
    have ih := add_map_keys k cinfo rest
    by_cases hg : g.1 = k <;>
      simp only [group_keys, List.map_cons] at ih ⊢ <;>
      simp [hg, ih]

/-- Mapping the group-update function over groups none of which carry the
key is the identity. -/
theorem add_map_untouched (k : Option String) (cinfo : ContainerInfo) :
    ∀ gs : List (Option String × List ContainerInfo),
      (∀ g ∈ gs, ¬ g.1 = k) →
      gs.map (fun g => if g.1 = k then (g.1, g.2 ++ [cinfo]) else g) = gs
  | [], _ => rfl
  | g :: rest, h => by
    have hg := h _ (List.mem_cons_self _ _)
    simp only [List.map_cons, if_neg hg,
      add_map_untouched k cinfo rest (fun x hx => h x (List.mem_cons_of_mem _ hx))]

/-- `group_members` distributes over list append. -/
theorem group_members_append :
    ∀ gs₁ gs₂ : List (Option String × List ContainerInfo),
      group_members (gs₁ ++ gs₂) = group_members gs₁ ++ group_members gs₂
  | [], gs₂ => rfl
  | g :: rest, gs₂ => by
    simp [group_members, group_members_append rest gs₂]

/-- Appending a container to the (unique, existing) group of its key adds
exactly that container to the overall membership. -/
theorem members_map_insert (cinfo : ContainerInfo) :
    ∀ gs : List (Option String × List ContainerInfo),
      (group_keys gs).Nodup →
      gs.any (fun g => g.1 = cinfo.package_manager) = true →
      (group_members (gs.map (fun g =>
          if g.1 = cinfo.package_manager then (g.1, g.2 ++ [cinfo]) else g))).Perm
        (cinfo :: group_members gs)
  | [], _, hany => by simp at hany
  | g :: rest, hnd, hany => by
    have hnd2 : g.1 ∉ group_keys rest ∧ (group_keys rest).Nodup := by
      simpa [group_keys, List.nodup_cons] using hnd
    by_cases hg : g.1 = cinfo.package_manager
    · have huntouched : rest.map (fun h =>
          if h.1 = cinfo.package_manager then (h.1, h.2 ++ [cinfo]) else h) = rest := by
        refine add_map_untouched _ cinfo rest (fun x hx hx1 => hnd2.1 ?_)
        rw [hg, ← hx1]
        exact List.mem_map.mpr ⟨x, hx, rfl⟩
      simp only [List.map_cons, if_pos hg, huntouched, group_members, List.append_assoc,
        List.singleton_append]
      exact List.perm_middle
    · have hany2 : rest.any (fun g => g.1 = cinfo.package_manager) = true := by
        simpa [hg] using hany
      have ih := members_map_insert cinfo rest hnd2.2 hany2
      simp only [List.map_cons, if_neg hg, group_members]
      exact (ih.append_left g.2).trans List.perm_middle

/-- One grouping step adds exactly the processed container to the overall
membership. -/
theorem members_add_perm (gs : List (Option String × List ContainerInfo))
    (cinfo : ContainerInfo) (hnd : (group_keys gs).Nodup) :
    (group_members (add_to_groups gs cinfo)).Perm (cinfo :: group_members gs) := by
  unfold add_to_groups
  by_cases hany : gs.any (fun g => g.1 = cinfo.package_manager) = true
  · rw [if_pos hany]
    exact members_map_insert cinfo gs hnd hany
  · rw [if_neg hany, group_members_append]
    simp only [group_members, List.append_nil]
    exact List.perm_append_singleton _ _

/-- One grouping step preserves the invariant that every member of a group
carries the group's key. -/
theorem keymem_add (gs : List (Option String × List ContainerInfo))
    (cinfo : ContainerInfo)
    (h : ∀ g ∈ gs, ∀ x ∈ g.2, x.package_manager = g.1) :
    ∀ g ∈ add_to_groups gs cinfo, ∀ x ∈ g.2, x.package_manager = g.1 := by
  unfold add_to_groups
  by_cases hany : gs.any (fun g => g.1 = cinfo.package_manager) = true
  · rw [if_pos hany]
    intro g hg x hx
    obtain ⟨g0, hg0, rfl⟩ := List.mem_map.mp hg
    by_cases h0 : g0.1 = cinfo.package_manager
    · rw [if_pos h0] at hx ⊢
      rcases List.mem_append.mp hx with hx | hx
      · exact h g0 hg0 x hx
      · have := List.mem_singleton.mp hx; subst this
        exact h0.symm
    · rw [if_neg h0] at hx ⊢
      exact h g0 hg0 x hx
  · rw [if_neg hany]
    intro g hg x hx
    rcases List.mem_append.mp hg with hg | hg
    · exact h g hg x hx
    · have := List.mem_singleton.mp hg; subst this
      have := List.mem_singleton.mp hx; subst this
      rfl

/-- One grouping step keeps the group keys duplicate-free. -/
theorem keys_nodup_add (gs : List (Option String × List ContainerInfo))
    (cinfo : ContainerInfo) (hnd : (group_keys gs).Nodup) :
    (group_keys (add_to_groups gs cinfo)).Nodup := by
  unfold add_to_groups
  by_cases hany : gs.any (fun g => g.1 = cinfo.package_manager) = true
  · rw [if_pos hany, add_map_keys]
    exact hnd
  · rw [if_neg hany]
    have hnotin : cinfo.package_manager ∉ group_keys gs := by
      intro hmem
      obtain ⟨g, hg, hg1⟩ := List.mem_map.mp hmem
      exact hany (List.any_eq_true.mpr ⟨g, hg, by simp [hg1]⟩)
    unfold group_keys
    rw [List.map_append]
    refine List.nodup_append.mpr ⟨hnd, by simp, ?_⟩
    intro k hk hk2
    simp only [List.map_cons, List.map_nil, List.mem_singleton] at hk2
    subst hk2
    exact hnotin hk

/-- The grouping fold keeps its keys duplicate-free, keeps every member
tagged with its group key, and its overall membership is a permutation of
the processed containers plus the initial membership. -/
theorem group_by_pm_invariant :
    ∀ (infos : List ContainerInfo) (acc : List (Option String × List ContainerInfo)),
      (group_keys acc).Nodup →
      (∀ g ∈ acc, ∀ x ∈ g.2, x.package_manager = g.1) →
      (group_keys (List.foldl add_to_groups acc infos)).Nodup ∧
      (∀ g ∈ List.foldl add_to_groups acc infos, ∀ x ∈ g.2, x.package_manager = g.1) ∧
      (group_members (List.foldl add_to_groups acc infos)).Perm
        (infos.reverse ++ group_members acc)
  | [], acc, hnd, hkm => ⟨hnd, hkm, by simp⟩
  | cinfo :: infos, acc, hnd, hkm => by
    have hstep := members_add_perm acc cinfo hnd
    have ih := group_by_pm_invariant infos (add_to_groups acc cinfo)
      (keys_nodup_add acc cinfo hnd) (keymem_add acc cinfo hkm)
    refine ⟨ih.1, ih.2.1, ?_⟩
    rw [List.foldl_cons]
    refine (ih.2.2.trans ((hstep.append_left infos.reverse).trans ?_))
    rw [List.reverse_cons, List.append_assoc, List.singleton_append]

/-- Counting a tagged pair in a constant-key tagging of a member list. -/
theorem count_pair_map :
    ∀ (l : List ContainerInfo) (k0 k : Option String) (t : ContainerInfo),
      ((l.map (fun x => (k0, x))).count (k, t)) = if k = k0 then l.count t else 0
  | [], k0, k, t => by simp
  | x :: l, k0, k, t => by
    by_cases hk : k = k0
    · subst hk
      by_cases hx : x = t
      · subst hx
        simp [List.count_cons, count_pair_map l k k x]
      · simp [List.count_cons, count_pair_map l k k t, hx]
    · simp [List.count_cons, count_pair_map l k0 k t, hk, Ne.symm hk]

/-- Counting in the non-empty-address filter of a member list. -/
theorem count_filter_ip :
    ∀ (l : List ContainerInfo) (t : ContainerInfo),
      ((l.filter (fun x => x.ip_address ≠ "")).count t) =
        if t.ip_address ≠ "" then l.count t else 0
  | [], t => by simp
  | a :: l, t => by
    by_cases hpa : a.ip_address ≠ ""
    · rw [List.filter_cons_of_pos (by simpa using hpa), List.count_cons, List.count_cons,
        count_filter_ip l t]
      by_cases ht : a = t
      · subst ht
        simp [hpa]
      · simp [ht]
    · rw [List.filter_cons_of_neg (by simpa using hpa), count_filter_ip l t]
      by_cases hti : t.ip_address ≠ ""
      · have hat : ¬ a = t := fun h => hpa (by rw [h]; exact hti) |>.elim
        rw [List.count_cons]
        simp [hti, hat]
      · simp [hti]

/-- A host entry tagged with a key different from its container's assigned
kind never occurs in the inventory. -/
theorem host_entries_wrong_key :
    ∀ gs : List (Option String × List ContainerInfo),
      (∀ g ∈ gs, ∀ x ∈ g.2, x.package_manager = g.1) →
      ∀ (k : Option String) (t : ContainerInfo), k ≠ t.package_manager →
        (k, t) ∉ host_entries_of gs
  | [], _, k, t, _ => by simp [host_entries_of]
  | g :: rest, h, k, t, hk => by
    simp only [host_entries_of, List.mem_append]
    rintro (hmem | hmem)
    · obtain ⟨x, hx, hx2⟩ := List.mem_map.mp hmem
      have hx3 : x ∈ g.2 := List.mem_of_mem_filter hx
      have := h g (List.mem_cons_self _ _) x hx3
      rw [Prod.mk.injEq] at hx2
      rw [hx2.2] at this
      exact hk (hx2.1 ▸ this.symm)
    · exact host_entries_wrong_key rest
        (fun g2 hg2 => h g2 (List.mem_cons_of_mem _ hg2)) k t hk hmem

/-- A container with its own key occurs in the inventory host entries
exactly as often as it occurs among the group members (when its address is
non-empty; never otherwise). -/
theorem host_entries_count :
    ∀ gs : List (Option String × List ContainerInfo),
      (∀ g ∈ gs, ∀ x ∈ g.2, x.package_manager = g.1) →
      ∀ t : ContainerInfo,
        (host_entries_of gs).count (t.package_manager, t) =
          if t.ip_address ≠ "" then (group_members gs).count t else 0
  | [], _, t => by simp [host_entries_of, group_members]
  | g :: rest, h, t => by
    have ih := host_entries_count rest
      (fun g2 hg2 => h g2 (List.mem_cons_of_mem _ hg2)) t
    simp only [host_entries_of, group_members, List.count_append]
    rw [count_pair_map, ih]
    by_cases hkg : t.package_manager = g.1
    · rw [if_pos hkg, count_filter_ip]
      by_cases hip : t.ip_address ≠ "" <;> simp [hip]
    · rw [if_neg hkg]
      have hnot : t ∉ g.2 := fun hmem => hkg (h g (List.mem_cons_self _ _) t hmem)
      have hzero : g.2.count t = 0 := List.count_eq_zero.mpr hnot
      by_cases hip : t.ip_address ≠ "" <;> simp [hip, hzero]

/-- C9: every target record with a non-empty resolved address that occurs
once in the fleet list — in particular every successfully provisioned one —
appears in the generated inventory exactly once, and only in the group
keyed by its assigned package-manager kind. -/
theorem inventory_exactly_once (containers_info : List ContainerInfo)
    (t : ContainerInfo)
    (hcount : containers_info.count t = 1)
    (hip : t.ip_address ≠ "") :
    (host_entries containers_info).count (t.package_manager, t) = 1 ∧
    ∀ k, k ≠ t.package_manager → (k, t) ∉ host_entries containers_info := by
  obtain ⟨hnd, hkm, hperm⟩ := group_by_pm_invariant containers_info []
    (by simp [group_keys]) (by simp)
  have hmembers : (group_members (group_by_pm containers_info)).count t = 1 := by
    have h1 := hperm.count_eq t
    rw [group_by_pm, h1]
    simp only [group_members, List.append_nil, List.count_reverse]
    exact hcount
  constructor
  · rw [host_entries, host_entries_count (group_by_pm containers_info) hkm t,
      if_pos hip]
    exact hmembers
  · intro k hk
    exact host_entries_wrong_key (group_by_pm containers_info) hkm k t hk

/-- Witness for C9: in a two-container fleet the `apk`-detected `web`
target appears exactly once, in the `apk` group and not in the `apt`
group. -/
theorem inventory_exactly_once_witness :
    (host_entries [info_web, info_db]).count (some "apk", info_web) = 1 ∧
    (some "apt", info_web) ∉ host_entries [info_web, info_db] := by
  have h := inventory_exactly_once [info_web, info_db] info_web (by decide) (by decide)
  exact ⟨h.1, h.2 (some "apt") (by decide)⟩

end TestSSH
